import Mathlib

/-!
Verification development for the GHOST endpoint-management agent.

The definitions below are shallow embeddings of the agent's Go source:
the SQLite-backed Store (`database.go`, giving `message_queue`,
`plugins` and `key_store` semantics over explicit list states), the
queue drainer (`MessageQueueManager`), the transport failover
(`UpdateConnection` / `TestConnection`), the plugin supervisor tick
(`PluginManager`, `IsRunning`), the CPU throttler loop (`MonitorCpu`)
and the adoption exit path (`ResumePlugin`).  Machine integers are
modelled as `Int`, SQL tables as lists of row structures, fallible
operations as `Option`, and Go panics as `none`.
-/

namespace Ghost

/-! ### String utilities (Go `strings` package) -/

/-- Go `strings.HasPrefix` on character lists: does the second list start
with the first? -/
def startsWithChars : List Char → List Char → Bool
  | [], _ => true
  | _ :: _, [] => false
  | c :: cs, d :: ds => c == d && startsWithChars cs ds

/-- Occurrence check on character lists: does `sub` occur contiguously in
the second list? -/
def charListHas (sub : List Char) : List Char → Bool
  | [] => sub.isEmpty
  | c :: rest => startsWithChars sub (c :: rest) || charListHas sub rest

/-- Go `strings.Contains s sub`. -/
def strContains (s sub : String) : Bool :=
  charListHas sub.data s.data

/-- Go `strings.Repeat s count`: panics (modelled as `none`) when `count`
is negative, as the Go standard library does. -/
def stringsRepeat (s : String) (count : Int) : Option String :=
  if count < 0 then none
  else some (String.join (List.replicate count.toNat s))

/-! ### Store: `message_queue` table (`database.go`)

A table state is a list of rows.  SQLite assigns `rowid INTEGER PRIMARY
KEY ASC` values monotonically (max existing rowid + 1), so a state
reached through the Store's own operations is strictly ascending in
`rowid`; `SortedQ` names that invariant. -/

structure QueueRow where
  rowid : Int
  postString : String
  postURI : String
deriving DecidableEq

/-- Rows in strictly ascending `rowid` order (the representation
invariant of a `message_queue` state). -/
def SortedQ (q : List QueueRow) : Prop :=
  List.Pairwise (fun a b => a.rowid < b.rowid) q

instance : DecidablePred SortedQ := fun q =>
  List.instDecidablePairwise q

/-- `ORDER BY rowid` on a table state. -/
def sortByRowid (q : List QueueRow) : List QueueRow :=
  List.insertionSort (fun a b => a.rowid ≤ b.rowid) q

/-- Next auto-assigned rowid: one more than the largest in the table
(SQLite `INTEGER PRIMARY KEY ASC` behaviour; 1 on an empty table). -/
def nextRowid (q : List QueueRow) : Int :=
  (q.foldr (fun r m => max r.rowid m) 0) + 1

/-- The `rolling_queue` trigger created by `MessageQueueCreateTable`:
after an insert, `DELETE FROM message_queue WHERE rowid <= (SELECT rowid
FROM message_queue ORDER BY rowid DESC LIMIT 20000, 1)`.  The subquery
is the 20001st-largest rowid (NULL — no deletion — when fewer rows
exist). -/
def rollingTrigger (q : List QueueRow) : List QueueRow :=
  match ((sortByRowid q).reverse)[20000]? with
  | none => q
  | some cutoff => q.filter (fun r => ¬ (r.rowid ≤ cutoff.rowid))

/-- `Database.MessageQueueInsert`: append a row with the next rowid, then
the rolling trigger fires. -/
def messageQueueInsert (postString postURI : String) (q : List QueueRow) :
    List QueueRow :=
  rollingTrigger (q ++ [⟨nextRowid q, postString, postURI⟩])

/-- `Database.MessageQueueSelectURI`: `SELECT rowid, post_string FROM
message_queue ORDER BY ROWID LIMIT 100`, then one pass appending
`post_string` to the message list when it is non-empty and `rowid` to the
rowid list when it is non-zero.  The `uri` argument is not used by the
SQL. -/
def messageQueueSelectURI (uri : String) (q : List QueueRow) :
    List String × List Int :=
  let rows := (sortByRowid q).take 100
  ((rows.filter (fun r => r.postString ≠ "")).map (fun r => r.postString),
   (rows.filter (fun r => r.rowid ≠ 0)).map (fun r => r.rowid))

/-- `Database.MessageQueueDelete`: builds
`"DELETE ... WHERE rowid IN (?" + strings.Repeat(",?", len(rowIds)-1) + ")"`
and executes it.  `strings.Repeat` with a negative count panics, modelled
by `none`; otherwise returns the number of rows removed and the new
state. -/
def messageQueueDelete (rowIds : List Int) (q : List QueueRow) :
    Option (Int × List QueueRow) :=
  match stringsRepeat ",?" ((rowIds.length : Int) - 1) with
  | none => none
  | some _ =>
    let kept := q.filter (fun r => ¬ (r.rowid ∈ rowIds))
    some ((q.length : Int) - (kept.length : Int), kept)

/-! ### Sorted-state lemmas -/

theorem sortByRowid_eq_of_sorted {q : List QueueRow} (h : SortedQ q) :
    sortByRowid q = q :=
  List.Sorted.insertionSort_eq (h.imp fun hab => le_of_lt hab)

theorem le_foldr_max (q : List QueueRow) :
    ∀ r ∈ q, r.rowid ≤ q.foldr (fun r m => max r.rowid m) 0 := by
  induction q with
  | nil => intro r hr; cases hr
  | cons a t ih =>
    intro r hr
    rcases List.mem_cons.mp hr with h | h
    · subst h
      simp only [List.foldr_cons]
      exact le_max_left _ _
    · exact le_trans (ih r h) (le_max_right _ _)

theorem nextRowid_gt (q : List QueueRow) :
    ∀ r ∈ q, r.rowid < nextRowid q := by
  intro r hr
  have := le_foldr_max q r hr
  unfold nextRowid
  omega

theorem sortedq_append_single {q : List QueueRow} (h : SortedQ q)
    {a : QueueRow} (ha : ∀ r ∈ q, r.rowid < a.rowid) :
    SortedQ (q ++ [a]) := by
  refine List.pairwise_append.mpr ⟨h, List.pairwise_singleton _ _, ?_⟩
  intro x hx y hy
  have : y = a := by simpa using hy
  subst this
  exact ha x hx

/-- In a strictly `rowid`-sorted list, keeping the rows whose rowid
exceeds the rowid at index `k` is exactly dropping the first `k + 1`
rows. -/
theorem sorted_filter_gt_eq_drop :
    ∀ (l : List QueueRow) (k : Nat), (hk : k < l.length) → SortedQ l →
      l.filter (fun r => ¬ (r.rowid ≤ l[k].rowid)) = l.drop (k + 1)
  | [], k, hk, _ => absurd hk (by simp)
  | a :: t, 0, _, h => by
    have hhead : ∀ x ∈ t, a.rowid < x.rowid := (List.pairwise_cons.mp h).1
    simp only [List.getElem_cons_zero, List.filter_cons, List.drop_succ_cons,
      List.drop_zero]
    rw [if_neg (by simp)]
    refine List.filter_eq_self.mpr ?_
    intro x hx
    have := hhead x hx
    simp only [decide_eq_true_eq]
    omega
  | a :: t, k + 1, hk, h => by
    have ht : SortedQ t := (List.pairwise_cons.mp h).2
    have hk' : k < t.length := by simpa using Nat.lt_of_succ_lt_succ hk
    have hcut : a.rowid < t[k].rowid :=
      (List.pairwise_cons.mp h).1 _ (List.getElem_mem hk')
    simp only [List.getElem_cons_succ, List.filter_cons, List.drop_succ_cons]
    rw [if_neg (by simp only [decide_eq_true_eq, Decidable.not_not]; omega)]
    exact sorted_filter_gt_eq_drop t k hk' ht

/-- On a sorted state, `MessageQueueSelectURI` is the one-pass rendering
of `SELECT rowid, post_string ... ORDER BY ROWID LIMIT 100`. -/
theorem selectURI_spec (uri : String) (q : List QueueRow) (h : SortedQ q) :
    messageQueueSelectURI uri q =
      (((q.take 100).filter fun r => r.postString ≠ "").map
         fun r => r.postString,
       ((q.take 100).filter fun r => r.rowid ≠ 0).map fun r => r.rowid) := by
  unfold messageQueueSelectURI
  rw [sortByRowid_eq_of_sorted h]

/-- With no zero rowids among the first 100 rows, the rowid filter in the
select is the identity. -/
theorem selectURI_rowids (q : List QueueRow) (h : SortedQ q)
    (hz : ∀ r ∈ q, r.rowid ≠ 0) :
    (messageQueueSelectURI "/core/pluginlog/" q).2 =
      (q.take 100).map fun r => r.rowid := by
  rw [selectURI_spec _ q h]
  have : (q.take 100).filter (fun r => r.rowid ≠ 0) = q.take 100 := by
    refine List.filter_eq_self.mpr ?_
    intro r hr
    simpa using hz r (List.take_subset 100 q hr)
  simp only []
  rw [this]

/-! ### C1 -/

/-- C1: the claim that no Store operation ever panics fails on
`MessageQueueDelete`: called with an empty rowid list it evaluates
`strings.Repeat(",?", -1)`, which panics in Go (modelled as `none`)
instead of returning a result and error. -/
theorem c1_messageQueueDelete_empty_panics :
    ∀ q : List QueueRow, messageQueueDelete [] q = none := by
  intro q
  rfl

/-! ### C3 -/

/-- C3: `MessageQueueSelectURI` ignores its `uri` argument entirely, and
on any (sorted) queue state returns data drawn from at most 100 rows:
the oldest rows of the whole `message_queue` in ascending rowid order,
with no filtering by channel. -/
theorem c3_selectURI_oldest_no_uri_filter (uri uri2 : String)
    (q : List QueueRow) (h : SortedQ q) :
    messageQueueSelectURI uri q = messageQueueSelectURI uri2 q ∧
    messageQueueSelectURI uri q =
      (((q.take 100).filter fun r => r.postString ≠ "").map
         fun r => r.postString,
       ((q.take 100).filter fun r => r.rowid ≠ 0).map fun r => r.rowid) ∧
    (messageQueueSelectURI uri q).1.length ≤ 100 ∧
    (messageQueueSelectURI uri q).2.length ≤ 100 ∧
    List.Pairwise (· < ·) (messageQueueSelectURI uri q).2 ∧
    (∀ x ∈ q.take 100, ∀ y ∈ q.drop 100, x.rowid < y.rowid) := by
  have hsel := selectURI_spec uri q h
  have htake : SortedQ (q.take 100) :=
    List.Pairwise.sublist (List.take_sublist 100 q) h
  refine ⟨rfl, hsel, ?_, ?_, ?_, ?_⟩
  · rw [hsel]
    simpa using le_trans (List.length_filter_le _ _) (List.length_take_le 100 q)
  · rw [hsel]
    simpa using le_trans (List.length_filter_le _ _) (List.length_take_le 100 q)
  · rw [hsel]
    refine List.pairwise_map.mpr ?_
    exact List.Pairwise.sublist (List.filter_sublist _) htake
  · intro x hx y hy
    have hsplit : SortedQ (q.take 100 ++ q.drop 100) := by
      rw [List.take_append_drop]
      exact h
    exact (List.pairwise_append.mp hsplit).2.2 x hx y hy

/-- Witness for C3 on a concrete queue: the URI argument is irrelevant. -/
theorem c3_selectURI_witness :
    messageQueueSelectURI "/core/pluginlog/"
        [⟨1, "a", "/core/pluginlog/"⟩, ⟨2, "b", "/other/"⟩] =
      messageQueueSelectURI "/some/other/uri/"
        [⟨1, "a", "/core/pluginlog/"⟩, ⟨2, "b", "/other/"⟩] :=
  (c3_selectURI_oldest_no_uri_filter "/core/pluginlog/" "/some/other/uri/"
    [⟨1, "a", "/core/pluginlog/"⟩, ⟨2, "b", "/other/"⟩] (by decide)).1

/-! ### C10 -/

/-- C10: `MessageQueueSelectURI` drops any selected row whose
`post_string` is empty from the returned message list, while the row's
rowid is still returned in the rowid list: every selected row's rowid is
returned, no returned message is empty, and the two lists' lengths
differ by the number of empty-payload rows among the selected ones. -/
theorem c10_selectURI_omits_empty_payload (uri : String)
    (q : List QueueRow) (h : SortedQ q) (hz : ∀ r ∈ q, r.rowid ≠ 0) :
    (∀ r ∈ q.take 100, r.rowid ∈ (messageQueueSelectURI uri q).2) ∧
    (∀ m ∈ (messageQueueSelectURI uri q).1, m ≠ "") ∧
    (messageQueueSelectURI uri q).2.length = (q.take 100).length ∧
    (messageQueueSelectURI uri q).1.length =
      ((q.take 100).filter fun r => r.postString ≠ "").length := by
  have hsel := selectURI_spec uri q h
  have hzfilter : (q.take 100).filter (fun r => r.rowid ≠ 0) = q.take 100 := by
    refine List.filter_eq_self.mpr ?_
    intro r hr
    simpa using hz r (List.take_subset 100 q hr)
  refine ⟨?_, ?_, ?_, ?_⟩
  · intro r hr
    rw [hsel]
    simp only []
    rw [hzfilter]
    exact List.mem_map_of_mem _ hr
  · intro m hm
    rw [hsel] at hm
    rcases List.mem_map.mp hm with ⟨r, hr, hrm⟩
    have := (List.mem_filter.mp hr).2
    simp only [decide_eq_true_eq] at this
    rw [← hrm]
    exact this
  · rw [hsel]
    simp only []
    rw [hzfilter, List.length_map]
  · rw [hsel]
    simp [List.length_map]

/-- Witness for C10 on a concrete queue holding an empty-payload row:
its rowid `1` is still handed out while the message list omits it. -/
theorem c10_selectURI_witness :
    (∀ r ∈ ([⟨1, "", "/core/pluginlog/"⟩, ⟨2, "x", "/core/pluginlog/"⟩] :
        List QueueRow).take 100,
      r.rowid ∈ (messageQueueSelectURI "/core/pluginlog/"
        [⟨1, "", "/core/pluginlog/"⟩, ⟨2, "x", "/core/pluginlog/"⟩]).2) ∧
    (∀ m ∈ (messageQueueSelectURI "/core/pluginlog/"
        [⟨1, "", "/core/pluginlog/"⟩, ⟨2, "x", "/core/pluginlog/"⟩]).1,
      m ≠ "") ∧
    (messageQueueSelectURI "/core/pluginlog/"
        [⟨1, "", "/core/pluginlog/"⟩, ⟨2, "x", "/core/pluginlog/"⟩]).2.length =
      (([⟨1, "", "/core/pluginlog/"⟩, ⟨2, "x", "/core/pluginlog/"⟩] :
        List QueueRow).take 100).length ∧
    (messageQueueSelectURI "/core/pluginlog/"
        [⟨1, "", "/core/pluginlog/"⟩, ⟨2, "x", "/core/pluginlog/"⟩]).1.length =
      ((([⟨1, "", "/core/pluginlog/"⟩, ⟨2, "x", "/core/pluginlog/"⟩] :
        List QueueRow).take 100).filter fun r => r.postString ≠ "").length :=
  c10_selectURI_omits_empty_payload "/core/pluginlog/"
    [⟨1, "", "/core/pluginlog/"⟩, ⟨2, "x", "/core/pluginlog/"⟩]
    (by decide) (by decide)

/-! ### C4 -/

/-- C4: after every `MessageQueueInsert` on a (sorted) state the
`message_queue` holds at most 20,000 rows; the operation appends one row
with a fresh largest rowid and the rolling trigger discards only an
oldest-rows prefix, so every discarded row has a smaller rowid than
every retained row; below the cap the insert is a pure append. -/
theorem c4_insert_cap_and_oldest_discard (s u : String) (q : List QueueRow)
    (h : SortedQ q) :
    (messageQueueInsert s u q).length ≤ 20000 ∧
    SortedQ (messageQueueInsert s u q) ∧
    (∃ m, messageQueueInsert s u q = (q ++ [(⟨nextRowid q, s, u⟩ : QueueRow)]).drop m) ∧
    (∀ d ∈ q ++ [(⟨nextRowid q, s, u⟩ : QueueRow)], d ∉ messageQueueInsert s u q →
      ∀ k ∈ messageQueueInsert s u q, d.rowid < k.rowid) ∧
    (q.length < 20000 →
      messageQueueInsert s u q = q ++ [(⟨nextRowid q, s, u⟩ : QueueRow)]) := by
  set newRow : QueueRow := ⟨nextRowid q, s, u⟩ with hnew
  set q1 : List QueueRow := q ++ [newRow] with hq1def
  have hq1 : SortedQ q1 :=
    sortedq_append_single h (fun r hr => nextRowid_gt q r hr)
  have hlen1 : q1.length = q.length + 1 := by
    simp [hq1def]
  have hins : messageQueueInsert s u q = rollingTrigger q1 := rfl
  have htrig : rollingTrigger q1 =
      match (q1.reverse)[20000]? with
      | none => q1
      | some cutoff => q1.filter (fun r => ¬ (r.rowid ≤ cutoff.rowid)) := by
    unfold rollingTrigger
    rw [sortByRowid_eq_of_sorted hq1]
  by_cases hle : q1.length ≤ 20000
  · have hnone : (q1.reverse)[20000]? = none := by
      refine List.getElem?_eq_none ?_
      simpa using hle
    have hres : messageQueueInsert s u q = q1 := by
      rw [hins, htrig, hnone]
    refine ⟨?_, ?_, ?_, ?_, ?_⟩
    · rw [hres]; exact hle
    · rw [hres]; exact hq1
    · exact ⟨0, by rw [hres, List.drop_zero]⟩
    · intro d hd hnd
      exact absurd (by rw [hres]; exact hd) hnd
    · intro _; exact hres
  · have hlt : 20000 < q1.length := Nat.lt_of_not_le hle
    have hk : q1.length - 1 - 20000 < q1.length := by omega
    have hsome : (q1.reverse)[20000]? = some q1[q1.length - 1 - 20000] := by
      rw [List.getElem?_reverse (by simpa using hlt)]
      exact List.getElem?_eq_getElem hk
    have hres : messageQueueInsert s u q =
        q1.drop (q1.length - 1 - 20000 + 1) := by
      rw [hins, htrig, hsome]
      exact sorted_filter_gt_eq_drop q1 (q1.length - 1 - 20000) hk hq1
    have hlen2 : (messageQueueInsert s u q).length = 20000 := by
      rw [hres, List.length_drop]
      omega
    refine ⟨le_of_eq hlen2, ?_, ⟨q1.length - 1 - 20000 + 1, hres⟩, ?_, ?_⟩
    · rw [hres]
      exact List.Pairwise.sublist (List.drop_sublist _ _) hq1
    · intro d hd hnd k hkmem
      set m : ℕ := q1.length - 1 - 20000 + 1 with hm
      have hsplitsorted : SortedQ (q1.take m ++ q1.drop m) := by
        rw [List.take_append_drop]
        exact hq1
      have hdsplit : d ∈ q1.take m ++ q1.drop m := by
        rw [List.take_append_drop]
        exact hd
      rcases List.mem_append.mp hdsplit with hdt | hdd
      · refine (List.pairwise_append.mp hsplitsorted).2.2 d hdt k ?_
        rw [hres] at hkmem
        exact hkmem
      · exact absurd (by rw [hres]; exact hdd) hnd
    · intro hsmall
      omega

/-- Witness for C4: inserting into an empty queue appends the single row
with rowid 1. -/
theorem c4_insert_witness :
    (messageQueueInsert "m" "/core/pluginlog/" []).length ≤ 20000 ∧
    SortedQ (messageQueueInsert "m" "/core/pluginlog/" []) ∧
    (∃ m, messageQueueInsert "m" "/core/pluginlog/" [] =
      (([] : List QueueRow) ++ [(⟨nextRowid [], "m", "/core/pluginlog/"⟩ : QueueRow)]).drop m) ∧
    (∀ d ∈ ([] : List QueueRow) ++ [(⟨nextRowid [], "m", "/core/pluginlog/"⟩ : QueueRow)],
      d ∉ messageQueueInsert "m" "/core/pluginlog/" [] →
      ∀ k ∈ messageQueueInsert "m" "/core/pluginlog/" [], d.rowid < k.rowid) ∧
    (([] : List QueueRow).length < 20000 →
      messageQueueInsert "m" "/core/pluginlog/" [] =
        ([] : List QueueRow) ++ [(⟨nextRowid [], "m", "/core/pluginlog/"⟩ : QueueRow)]) :=
  c4_insert_cap_and_oldest_discard "m" "/core/pluginlog/" [] (by decide)

/-! ### Transport send outcomes and the queue drainer (`comms.go`,
`message_manager.go`) -/

/-- HTTP statuses modelled for `Sender.Send`'s `resp.Status` line. -/
inductive HStatus
  | s200 | s400 | s401 | s403 | s404 | s500 | s501 | s502 | s503
deriving DecidableEq

/-- Go `net/http` `Response.Status` text for the modelled codes. -/
def statusLine : HStatus → String
  | .s200 => "200 OK"
  | .s400 => "400 Bad Request"
  | .s401 => "401 Unauthorized"
  | .s403 => "403 Forbidden"
  | .s404 => "404 Not Found"
  | .s500 => "500 Internal Server Error"
  | .s501 => "501 Not Implemented"
  | .s502 => "502 Bad Gateway"
  | .s503 => "503 Service Unavailable"

/-- Abstract outcome of one `Sender.Send` POST, in the order the code
can fail: transport error, unreadable body, non-200 status, envelope
unmarshal failure, signature verification failure, or success. -/
inductive SendOutcome
  | netErr (msg : String)
  | bodyUnreadable (msg : String)
  | httpBadStatus (st : HStatus)
  | badPayload (msg : String)
  | sigInvalid
  | delivered (resp : String)
deriving DecidableEq

/-- The error string `Sender.Send` returns for each outcome (`none` on
success), with the exact prefixes built in `comms.go`. -/
def sendErrString : SendOutcome → Option String
  | .netErr m => some ("NETWORK ERROR: " ++ m)
  | .bodyUnreadable m => some ("Unable to read body response: " ++ m)
  | .httpBadStatus st => some ("Received bad status: " ++ statusLine st)
  | .badPayload m => some ("Unable to unmarshal payload map: " ++ m)
  | .sigInvalid => some "unable to verify response signature"
  | .delivered _ => none

/-- The batch-removal decision in `MessageQueueManager`: remove on
success, or on an error whose text contains `"500 Internal Server
Error"` or `"400 Bad Request"`. -/
def drainerRemoves (err : Option String) : Bool :=
  match err with
  | none => true
  | some e =>
    strContains e "500 Internal Server Error" || strContains e "400 Bad Request"

/-- One iteration of the `MessageQueueManager` loop body on a non-error
select: pop a batch, send it, and delete the batch's rowids exactly when
`drainerRemoves` fires; `none` propagates a Store panic. -/
def drainerStep (q : List QueueRow) (outcome : SendOutcome) :
    Option (List QueueRow) :=
  let sel := messageQueueSelectURI "/core/pluginlog/" q
  if sel.1.isEmpty then some q
  else if drainerRemoves (sendErrString outcome) then
    match messageQueueDelete sel.2 q with
    | none => none
    | some (_, q2) => some q2
  else some q

/-- The outcomes the claim designates for deletion: delivery succeeded,
or the controller answered HTTP 400 or 500. -/
def permanentOutcome : SendOutcome → Bool
  | .delivered _ => true
  | .httpBadStatus .s400 => true
  | .httpBadStatus .s500 => true
  | _ => false

/-- Free-text error messages (network, body, unmarshal) that do not
themselves contain either status substring the drainer greps for — true
of real transport failures. -/
def OutcomeBenign : SendOutcome → Prop
  | .netErr m =>
      strContains ("NETWORK ERROR: " ++ m) "500 Internal Server Error" = false ∧
      strContains ("NETWORK ERROR: " ++ m) "400 Bad Request" = false
  | .bodyUnreadable m =>
      strContains ("Unable to read body response: " ++ m)
          "500 Internal Server Error" = false ∧
      strContains ("Unable to read body response: " ++ m)
          "400 Bad Request" = false
  | .badPayload m =>
      strContains ("Unable to unmarshal payload map: " ++ m)
          "500 Internal Server Error" = false ∧
      strContains ("Unable to unmarshal payload map: " ++ m)
          "400 Bad Request" = false
  | _ => True

/-- The substring test in the drainer agrees with the claim's outcome
classification on benign error texts. -/
theorem drainerRemoves_eq_permanent (o : SendOutcome) (hb : OutcomeBenign o) :
    drainerRemoves (sendErrString o) = permanentOutcome o := by
  cases o with
  | netErr m =>
    obtain ⟨h1, h2⟩ := hb
    simp [drainerRemoves, sendErrString, permanentOutcome, h1, h2]
  | bodyUnreadable m =>
    obtain ⟨h1, h2⟩ := hb
    simp [drainerRemoves, sendErrString, permanentOutcome, h1, h2]
  | badPayload m =>
    obtain ⟨h1, h2⟩ := hb
    simp [drainerRemoves, sendErrString, permanentOutcome, h1, h2]
  | sigInvalid => decide
  | delivered r => rfl
  | httpBadStatus st => cases st <;> decide

/-! ### C2 -/

/-- C2: for a non-empty drained batch, `MessageQueueManager` deletes the
batch's rowids exactly when the POST succeeded or failed with HTTP 400
or 500; on any other outcome (network error, bad body, other statuses,
signature failure) the queue is left unchanged, so the same batch is
returned by the next iteration's select and retried. -/
theorem c2_drain_deletes_exactly_on_success_or_400_500
    (q : List QueueRow) (o : SendOutcome) (h : SortedQ q)
    (hz : ∀ r ∈ q, r.rowid ≠ 0) (hb : OutcomeBenign o)
    (hne : (messageQueueSelectURI "/core/pluginlog/" q).1 ≠ []) :
    (permanentOutcome o = true →
      drainerStep q o = some (q.filter (fun r =>
        ¬ (r.rowid ∈ (messageQueueSelectURI "/core/pluginlog/" q).2)))) ∧
    (permanentOutcome o = false → drainerStep q o = some q) := by
  have hremove := drainerRemoves_eq_permanent o hb
  have hsel := selectURI_spec "/core/pluginlog/" q h
  have htake : (q.take 100) ≠ [] := by
    intro habs
    apply hne
    rw [hsel, habs]
    rfl
  have hids : (messageQueueSelectURI "/core/pluginlog/" q).2 ≠ [] := by
    rw [hsel]
    simp only [ne_eq, List.map_eq_nil_iff]
    intro habs
    have : (q.take 100).filter (fun r => r.rowid ≠ 0) = q.take 100 := by
      refine List.filter_eq_self.mpr ?_
      intro r hr
      simpa using hz r (List.take_subset 100 q hr)
    rw [this] at habs
    exact htake habs
  have hdel : messageQueueDelete (messageQueueSelectURI "/core/pluginlog/" q).2 q =
      some ((q.length : Int) -
          ((q.filter (fun r =>
            ¬ (r.rowid ∈ (messageQueueSelectURI "/core/pluginlog/" q).2))).length : Int),
        q.filter (fun r =>
          ¬ (r.rowid ∈ (messageQueueSelectURI "/core/pluginlog/" q).2))) := by
    unfold messageQueueDelete stringsRepeat
    have hlen : 1 ≤ (messageQueueSelectURI "/core/pluginlog/" q).2.length :=
      List.length_pos.mpr hids
    rw [if_neg (by omega)]
  constructor
  · intro hperm
    unfold drainerStep
    rw [if_neg (by simpa [List.isEmpty_iff] using hne), hremove, hperm,
      if_pos rfl, hdel]
  · intro hperm
    unfold drainerStep
    rw [if_neg (by simpa [List.isEmpty_iff] using hne), hremove, hperm]
    rfl

/-- Witness for C2: a delivered batch of one message is removed from the
queue. -/
theorem c2_drain_witness :
    (permanentOutcome (SendOutcome.delivered "ok") = true →
      drainerStep [(⟨1, "m", "/core/pluginlog/"⟩ : QueueRow)]
          (SendOutcome.delivered "ok") =
        some (([(⟨1, "m", "/core/pluginlog/"⟩ : QueueRow)]).filter (fun r =>
          ¬ (r.rowid ∈ (messageQueueSelectURI "/core/pluginlog/"
            [(⟨1, "m", "/core/pluginlog/"⟩ : QueueRow)]).2)))) ∧
    (permanentOutcome (SendOutcome.delivered "ok") = false →
      drainerStep [(⟨1, "m", "/core/pluginlog/"⟩ : QueueRow)]
          (SendOutcome.delivered "ok") =
        some [(⟨1, "m", "/core/pluginlog/"⟩ : QueueRow)]) :=
  c2_drain_deletes_exactly_on_success_or_400_500
    [(⟨1, "m", "/core/pluginlog/"⟩ : QueueRow)] (SendOutcome.delivered "ok")
    (by decide) (by decide) (by trivial) (by decide)

/-! ### Transport failover (`Sender.UpdateConnection`, `comms.go`)

The sender state is the pinned `(ControllerURL, Proxy)` pair.  The
network is abstracted by an oracle `succ controller effectiveProxy`
saying whether `GET {controller}/core/conntest/` through that proxy
(`none` = direct) answers success. -/

structure Sender where
  controllerURL : String
  proxy : String
deriving DecidableEq

/-- Go `strings.TrimSuffix(s, "/")`: drops one trailing slash. -/
def trimSuffixSlash (s : String) : String :=
  if s.data.getLast? = some '/' then String.mk s.data.dropLast else s

/-- Go `strings.ToLower` (over the character sequence). -/
def strToLower (s : String) : String :=
  String.mk (s.data.map Char.toLower)

/-- The guard `s.Proxy != "" && strings.ToLower(s.Proxy) != "none"`; when
false the transport proxy is set to nil. -/
def proxyUsable (p : String) : Bool :=
  p != "" && strToLower p != "none"

/-- The effective proxy the transport is configured with. -/
def effProxy (p : String) : Option String :=
  if proxyUsable p then some p else none

/-- Whether a conntest from state `s` succeeds (the state's controller
URL is already the one the request is built from). -/
def succTest (succ : String → Option String → Bool) (s : Sender) : Bool :=
  succ s.controllerURL (effProxy s.proxy)

/-- `Sender.TestConnection`: trims one trailing slash off the stored
controller URL (a mutation kept in the returned state), configures the
proxy, and issues the conntest. -/
def testConnection (succ : String → Option String → Bool) (s : Sender) :
    Bool × Sender :=
  let s1 : Sender := ⟨trimSuffixSlash s.controllerURL, s.proxy⟩
  (succTest succ s1, s1)

/-- Result of a failover walk: whether it succeeded, the sender state it
ended in, and (ghost data) the list of states it tested, in order. -/
structure TryResult where
  ok : Bool
  state : Sender
  trace : List Sender
deriving DecidableEq

/-- The `for _, Proxy := range proxyList` loop inside
`UpdateConnection`: set the proxy, test, stop on success. -/
def tryProxyLoop (succ : String → Option String → Bool) (s : Sender) :
    List String → TryResult
  | [] => ⟨false, s, []⟩
  | p :: rest =>
    let t := testConnection succ ⟨s.controllerURL, p⟩
    if t.1 then ⟨true, t.2, [t.2]⟩
    else
      let r := tryProxyLoop succ t.2 rest
      ⟨r.ok, r.state, t.2 :: r.trace⟩

/-- One controller's worth of `UpdateConnection`: test with the current
proxy, then with no proxy when the current proxy is usable, then walk
the proxy list. -/
def tryController (succ : String → Option String → Bool)
    (proxyList : List String) (s : Sender) (c : String) : TryResult :=
  let t1 := testConnection succ ⟨c, s.proxy⟩
  if t1.1 then ⟨true, t1.2, [t1.2]⟩
  else if proxyUsable t1.2.proxy then
    let t2 := testConnection succ ⟨t1.2.controllerURL, ""⟩
    if t2.1 then ⟨true, t2.2, [t1.2, t2.2]⟩
    else
      let r := tryProxyLoop succ t2.2 proxyList
      ⟨r.ok, r.state, t1.2 :: t2.2 :: r.trace⟩
  else
    let r := tryProxyLoop succ t1.2 proxyList
    ⟨r.ok, r.state, t1.2 :: r.trace⟩

/-- The outer `for _, ControllerURL := range controllerList` loop. -/
def tryControllerLoop (succ : String → Option String → Bool)
    (proxyList : List String) (s : Sender) : List String → TryResult
  | [] => ⟨false, s, []⟩
  | c :: rest =>
    let t := tryController succ proxyList s c
    if t.ok then t
    else
      let r := tryControllerLoop succ proxyList t.state rest
      ⟨r.ok, r.state, t.trace ++ r.trace⟩

/-- `Sender.UpdateConnection`: walk all combinations; on total failure
restore the original controller URL and proxy. -/
def updateConnection (succ : String → Option String → Bool) (s0 : Sender)
    (proxyList controllerList : List String) : Bool × Sender :=
  let r := tryControllerLoop succ proxyList s0 controllerList
  if r.ok then (true, r.state) else (false, ⟨s0.controllerURL, s0.proxy⟩)

/-- The sequence of sender states `UpdateConnection` tests, in order. -/
def updateTrace (succ : String → Option String → Bool) (s0 : Sender)
    (proxyList controllerList : List String) : List Sender :=
  (tryControllerLoop succ proxyList s0 controllerList).trace

/-- The proxy that is "currently selected" when the walk moves past a
controller: the last proxy tried for it. -/
def claimNextProxy (curProxy : String) (proxyList : List String) : String :=
  match proxyList.getLast? with
  | some p => p
  | none => if proxyUsable curProxy then "" else curProxy

/-- One controller's trials per the claim's wording: the
currently-selected proxy first, then no proxy (omitted when no usable
proxy is currently selected, where it would repeat the previous trial),
then each proxy in list order. -/
def claimBlock (c curProxy : String) (proxyList : List String) :
    List Sender :=
  (⟨c, curProxy⟩ : Sender) ::
    ((if proxyUsable curProxy then [(⟨c, ""⟩ : Sender)] else []) ++
      proxyList.map fun p => (⟨c, p⟩ : Sender))

/-- Modelled from the claim's wording: the full trial sequence, walking
the controllers in list order with the selected proxy carried along. -/
def claimTrials (curProxy : String) (proxyList : List String) :
    List String → List Sender
  | [] => []
  | c :: rest =>
    claimBlock c curProxy proxyList ++
      claimTrials (claimNextProxy curProxy proxyList) proxyList rest

/-! ### Failover walk characterization -/

theorem testConnection_eq (succ : String → Option String → Bool)
    (c p : String) (hc : trimSuffixSlash c = c) :
    testConnection succ ⟨c, p⟩ = (succTest succ ⟨c, p⟩, ⟨c, p⟩) := by
  unfold testConnection
  rw [hc]

/-- Prepending a failed trial to a trace preserves its last element and
keeps every non-final trial failing. -/
theorem trace_cons_ok (succ : String → Option String → Bool) (x : Sender)
    (hx : succTest succ x = false) {tr : List Sender} {st : Sender}
    (h2 : tr.getLast? = some st)
    (h4 : ∀ t ∈ tr.dropLast, succTest succ t = false) :
    (x :: tr).getLast? = some st ∧
    ∀ t ∈ (x :: tr).dropLast, succTest succ t = false := by
  cases tr with
  | nil => cases h2
  | cons b bs =>
    refine ⟨by rw [List.getLast?_cons_cons]; exact h2, ?_⟩
    have hd : (x :: b :: bs).dropLast = x :: (b :: bs).dropLast := by
      rw [← List.singleton_append, List.dropLast_append_of_ne_nil _ (by simp),
        List.singleton_append]
    rw [hd]
    intro t ht
    rcases List.mem_cons.mp ht with h | h
    · subst h; exact hx
    · exact h4 t h

theorem tryProxyLoop_spec (succ : String → Option String → Bool)
    (c : String) (hc : trimSuffixSlash c = c) :
    ∀ (pl : List String) (p0 : String),
      ((tryProxyLoop succ ⟨c, p0⟩ pl).ok = false →
        (tryProxyLoop succ ⟨c, p0⟩ pl).trace =
          pl.map (fun p => (⟨c, p⟩ : Sender)) ∧
        (tryProxyLoop succ ⟨c, p0⟩ pl).state =
          (match pl.getLast? with
            | some p => (⟨c, p⟩ : Sender)
            | none => (⟨c, p0⟩ : Sender)) ∧
        ∀ t ∈ (tryProxyLoop succ ⟨c, p0⟩ pl).trace, succTest succ t = false) ∧
      ((tryProxyLoop succ ⟨c, p0⟩ pl).ok = true →
        succTest succ (tryProxyLoop succ ⟨c, p0⟩ pl).state = true ∧
        (tryProxyLoop succ ⟨c, p0⟩ pl).trace.getLast? =
          some (tryProxyLoop succ ⟨c, p0⟩ pl).state ∧
        (∃ rest, (tryProxyLoop succ ⟨c, p0⟩ pl).trace ++ rest =
          pl.map (fun p => (⟨c, p⟩ : Sender))) ∧
        ∀ t ∈ (tryProxyLoop succ ⟨c, p0⟩ pl).trace.dropLast,
          succTest succ t = false) := by
  intro pl
  induction pl with
  | nil =>
    intro p0
    constructor
    · intro _
      exact ⟨rfl, rfl, fun t ht => absurd ht (List.not_mem_nil t)⟩
    · intro h
      simp [tryProxyLoop] at h
  | cons p rest ih =>
    intro p0
    have hT := testConnection_eq succ c p hc
    cases hs : succTest succ (⟨c, p⟩ : Sender) with
    | true =>
      have hunfold : tryProxyLoop succ ⟨c, p0⟩ (p :: rest) =
          ⟨true, ⟨c, p⟩, [⟨c, p⟩]⟩ := by
        simp [tryProxyLoop, hT, hs]
      rw [hunfold]
      constructor
      · intro h; simp at h
      · intro _
        refine ⟨hs, rfl, ⟨rest.map (fun p => (⟨c, p⟩ : Sender)), by simp⟩, ?_⟩
        intro t ht
        simp at ht
    | false =>
      have hunfold : tryProxyLoop succ ⟨c, p0⟩ (p :: rest) =
          ⟨(tryProxyLoop succ ⟨c, p⟩ rest).ok,
            (tryProxyLoop succ ⟨c, p⟩ rest).state,
            (⟨c, p⟩ : Sender) :: (tryProxyLoop succ ⟨c, p⟩ rest).trace⟩ := by
        simp [tryProxyLoop, hT, hs]
      obtain ⟨ihf, iht⟩ := ih p
      rw [hunfold]
      constructor
      · intro hok
        obtain ⟨h1, h2, h3⟩ := ihf hok
        refine ⟨by simp [h1], ?_, ?_⟩
        · cases rest with
          | nil =>
            simp only [List.getLast?_nil] at h2
            simpa using h2
          | cons q qs =>
            rw [List.getLast?_cons_cons]
            exact h2
        · intro t ht
          rcases List.mem_cons.mp ht with h | h
          · subst h; exact hs
          · exact h3 t h
      · intro hok
        obtain ⟨h1, h2, h3, h4⟩ := iht hok
        obtain ⟨hlast, hdrop⟩ := trace_cons_ok succ _ hs h2 h4
        refine ⟨h1, hlast, ?_, hdrop⟩
        obtain ⟨rest2, hr⟩ := h3
        exact ⟨rest2, by simp [hr]⟩

theorem tryController_spec (succ : String → Option String → Bool)
    (pl : List String) (c : String) (hc : trimSuffixSlash c = c)
    (ctrl0 p0 : String) :
    ((tryController succ pl ⟨ctrl0, p0⟩ c).ok = false →
      (tryController succ pl ⟨ctrl0, p0⟩ c).trace = claimBlock c p0 pl ∧
      (tryController succ pl ⟨ctrl0, p0⟩ c).state =
        ⟨c, claimNextProxy p0 pl⟩ ∧
      ∀ t ∈ (tryController succ pl ⟨ctrl0, p0⟩ c).trace,
        succTest succ t = false) ∧
    ((tryController succ pl ⟨ctrl0, p0⟩ c).ok = true →
      succTest succ (tryController succ pl ⟨ctrl0, p0⟩ c).state = true ∧
      (tryController succ pl ⟨ctrl0, p0⟩ c).trace.getLast? =
        some (tryController succ pl ⟨ctrl0, p0⟩ c).state ∧
      (∃ rest, (tryController succ pl ⟨ctrl0, p0⟩ c).trace ++ rest =
        claimBlock c p0 pl) ∧
      ∀ t ∈ (tryController succ pl ⟨ctrl0, p0⟩ c).trace.dropLast,
        succTest succ t = false) := by
  have hT1 := testConnection_eq succ c p0 hc
  cases hA : succTest succ (⟨c, p0⟩ : Sender) with
  | true =>
    have hunfold : tryController succ pl ⟨ctrl0, p0⟩ c =
        ⟨true, ⟨c, p0⟩, [⟨c, p0⟩]⟩ := by
      simp [tryController, hT1, hA]
    rw [hunfold]
    constructor
    · intro h; simp at h
    · intro _
      refine ⟨hA, rfl, ⟨(if proxyUsable p0 then [(⟨c, ""⟩ : Sender)] else []) ++
        pl.map fun p => (⟨c, p⟩ : Sender), by simp [claimBlock]⟩, ?_⟩
      intro t ht
      simp at ht
  | false =>
    cases hU : proxyUsable p0 with
    | true =>
      have hT2 := testConnection_eq succ c "" hc
      cases hB : succTest succ (⟨c, ""⟩ : Sender) with
      | true =>
        have hunfold : tryController succ pl ⟨ctrl0, p0⟩ c =
            ⟨true, ⟨c, ""⟩, [⟨c, p0⟩, ⟨c, ""⟩]⟩ := by
          simp [tryController, hT1, hA, hU, hT2, hB]
        rw [hunfold]
        constructor
        · intro h; simp at h
        · intro _
          refine ⟨hB, rfl,
            ⟨pl.map fun p => (⟨c, p⟩ : Sender), by simp [claimBlock, hU]⟩, ?_⟩
          intro t ht
          simp at ht
          subst ht
          exact hA
      | false =>
        have hunfold : tryController succ pl ⟨ctrl0, p0⟩ c =
            ⟨(tryProxyLoop succ ⟨c, ""⟩ pl).ok,
              (tryProxyLoop succ ⟨c, ""⟩ pl).state,
              (⟨c, p0⟩ : Sender) :: (⟨c, ""⟩ : Sender) ::
                (tryProxyLoop succ ⟨c, ""⟩ pl).trace⟩ := by
          simp [tryController, hT1, hA, hU, hT2, hB]
        obtain ⟨ihf, iht⟩ := tryProxyLoop_spec succ c hc pl ""
        rw [hunfold]
        constructor
        · intro hok
          obtain ⟨h1, h2, h3⟩ := ihf hok
          refine ⟨by simp [claimBlock, hU, h1], ?_, ?_⟩
          · rw [h2]
            cases hg : pl.getLast? with
            | none => simp [claimNextProxy, hg, hU]
            | some p => simp [claimNextProxy, hg]
          · intro t ht
            rcases List.mem_cons.mp ht with h | h
            · subst h; exact hA
            · rcases List.mem_cons.mp h with h | h
              · subst h; exact hB
              · exact h3 t h
        · intro hok
          obtain ⟨h1, h2, h3, h4⟩ := iht hok
          obtain ⟨hlast1, hdrop1⟩ := trace_cons_ok succ _ hB h2 h4
          obtain ⟨hlast2, hdrop2⟩ := trace_cons_ok succ _ hA hlast1 hdrop1
          refine ⟨h1, hlast2, ?_, hdrop2⟩
          obtain ⟨rest2, hr⟩ := h3
          exact ⟨rest2, by simp [claimBlock, hU, hr]⟩
    | false =>
      have hunfold : tryController succ pl ⟨ctrl0, p0⟩ c =
          ⟨(tryProxyLoop succ ⟨c, p0⟩ pl).ok,
            (tryProxyLoop succ ⟨c, p0⟩ pl).state,
            (⟨c, p0⟩ : Sender) :: (tryProxyLoop succ ⟨c, p0⟩ pl).trace⟩ := by
        simp [tryController, hT1, hA, hU]
      obtain ⟨ihf, iht⟩ := tryProxyLoop_spec succ c hc pl p0
      rw [hunfold]
      constructor
      · intro hok
        obtain ⟨h1, h2, h3⟩ := ihf hok
        refine ⟨by simp [claimBlock, hU, h1], ?_, ?_⟩
        · rw [h2]
          cases hg : pl.getLast? with
          | none => simp [claimNextProxy, hg, hU]
          | some p => simp [claimNextProxy, hg]
        · intro t ht
          rcases List.mem_cons.mp ht with h | h
          · subst h; exact hA
          · exact h3 t h
      · intro hok
        obtain ⟨h1, h2, h3, h4⟩ := iht hok
        obtain ⟨hlast, hdrop⟩ := trace_cons_ok succ _ hA h2 h4
        refine ⟨h1, hlast, ?_, hdrop⟩
        obtain ⟨rest2, hr⟩ := h3
        exact ⟨rest2, by simp [claimBlock, hU, hr]⟩

theorem tryControllerLoop_spec (succ : String → Option String → Bool)
    (pl : List String) :
    ∀ (cl : List String) (s : Sender), (∀ c ∈ cl, trimSuffixSlash c = c) →
      ((tryControllerLoop succ pl s cl).ok = false →
        (tryControllerLoop succ pl s cl).trace = claimTrials s.proxy pl cl ∧
        ∀ t ∈ (tryControllerLoop succ pl s cl).trace,
          succTest succ t = false) ∧
      ((tryControllerLoop succ pl s cl).ok = true →
        succTest succ (tryControllerLoop succ pl s cl).state = true ∧
        (tryControllerLoop succ pl s cl).trace.getLast? =
          some (tryControllerLoop succ pl s cl).state ∧
        (∃ rest, (tryControllerLoop succ pl s cl).trace ++ rest =
          claimTrials s.proxy pl cl) ∧
        ∀ t ∈ (tryControllerLoop succ pl s cl).trace.dropLast,
          succTest succ t = false) := by
  intro cl
  induction cl with
  | nil =>
    intro s _
    constructor
    · intro _
      exact ⟨rfl, fun t ht => absurd ht (List.not_mem_nil t)⟩
    · intro h
      simp [tryControllerLoop] at h
  | cons c rest ih =>
    rintro ⟨ctrl0, p0⟩ hcl
    have hc : trimSuffixSlash c = c := hcl c (List.mem_cons_self c rest)
    have hcl' : ∀ x ∈ rest, trimSuffixSlash x = x :=
      fun x hx => hcl x (List.mem_cons_of_mem c hx)
    obtain ⟨bf, bt⟩ := tryController_spec succ pl c hc ctrl0 p0
    cases hok : (tryController succ pl ⟨ctrl0, p0⟩ c).ok with
    | true =>
      have hunfold : tryControllerLoop succ pl ⟨ctrl0, p0⟩ (c :: rest) =
          tryController succ pl ⟨ctrl0, p0⟩ c := by
        simp [tryControllerLoop, hok]
      obtain ⟨h1, h2, h3, h4⟩ := bt hok
      rw [hunfold]
      constructor
      · intro habs
        rw [hok] at habs
        cases habs
      · intro _
        refine ⟨h1, h2, ?_, h4⟩
        obtain ⟨rest2, hr⟩ := h3
        refine ⟨rest2 ++ claimTrials (claimNextProxy p0 pl) pl rest, ?_⟩
        rw [claimTrials, ← List.append_assoc, hr]
    | false =>
      obtain ⟨h1, h2, h3⟩ := bf hok
      have hunfold : tryControllerLoop succ pl ⟨ctrl0, p0⟩ (c :: rest) =
          ⟨(tryControllerLoop succ pl
              (tryController succ pl ⟨ctrl0, p0⟩ c).state rest).ok,
            (tryControllerLoop succ pl
              (tryController succ pl ⟨ctrl0, p0⟩ c).state rest).state,
            (tryController succ pl ⟨ctrl0, p0⟩ c).trace ++
              (tryControllerLoop succ pl
                (tryController succ pl ⟨ctrl0, p0⟩ c).state rest).trace⟩ := by
        simp [tryControllerLoop, hok]
      obtain ⟨ihf, iht⟩ := ih (tryController succ pl ⟨ctrl0, p0⟩ c).state hcl'
      have hproxy : (tryController succ pl ⟨ctrl0, p0⟩ c).state.proxy =
          claimNextProxy p0 pl := by
        rw [h2]
      rw [hunfold]
      constructor
      · intro hok2
        obtain ⟨g1, g2⟩ := ihf hok2
        refine ⟨?_, ?_⟩
        · rw [claimTrials, ← h1, g1, hproxy]
        · intro t ht
          rcases List.mem_append.mp ht with h | h
          · exact h3 t h
          · exact g2 t h
      · intro hok2
        obtain ⟨g1, g2, g3, g4⟩ := iht hok2
        have gne : (tryControllerLoop succ pl
            (tryController succ pl ⟨ctrl0, p0⟩ c).state rest).trace ≠ [] := by
          intro habs
          rw [habs] at g2
          cases g2
        refine ⟨g1, ?_, ?_, ?_⟩
        · rw [List.getLast?_append_of_ne_nil _ gne]
          exact g2
        · obtain ⟨rest2, hr⟩ := g3
          refine ⟨rest2, ?_⟩
          rw [claimTrials, ← h1, List.append_assoc, hr, hproxy]
        · rw [List.dropLast_append_of_ne_nil _ gne]
          intro t ht
          rcases List.mem_append.mp ht with h | h
          · exact h3 t h
          · exact g4 t h

/-! ### C5 -/

/-- C5: `UpdateConnection` returns true only with a pinned
`(controller, proxy)` pair for which the conntest succeeded, that pair
being the last state it tested; every state tested before the final one
failed; its trials follow the claim's order (current proxy, then
no-proxy, then each listed proxy, per controller in list order); and on
total failure it returns false with the prior pair restored, having
tested (and failed) the complete trial sequence.  The hypothesis only
rules out controller URLs carrying a trailing slash, which
`TestConnection` would canonicalize mid-walk. -/
theorem c5_updateConnection_pins_only_tested
    (succ : String → Option String → Bool) (s0 : Sender)
    (pl cl : List String) (hcl : ∀ c ∈ cl, trimSuffixSlash c = c) :
    ((updateConnection succ s0 pl cl).1 = true →
      succTest succ (updateConnection succ s0 pl cl).2 = true ∧
      (updateTrace succ s0 pl cl).getLast? =
        some (updateConnection succ s0 pl cl).2) ∧
    ((updateConnection succ s0 pl cl).1 = false →
      (updateConnection succ s0 pl cl).2 = s0 ∧
      updateTrace succ s0 pl cl = claimTrials s0.proxy pl cl ∧
      ∀ t ∈ updateTrace succ s0 pl cl, succTest succ t = false) ∧
    (∃ rest, updateTrace succ s0 pl cl ++ rest =
      claimTrials s0.proxy pl cl) ∧
    (∀ t ∈ (updateTrace succ s0 pl cl).dropLast,
      succTest succ t = false) := by
  obtain ⟨lf, lt⟩ := tryControllerLoop_spec succ pl cl s0 hcl
  have htr : updateTrace succ s0 pl cl =
      (tryControllerLoop succ pl s0 cl).trace := rfl
  cases hok : (tryControllerLoop succ pl s0 cl).ok with
  | true =>
    obtain ⟨h1, h2, h3, h4⟩ := lt hok
    have hupd : updateConnection succ s0 pl cl =
        (true, (tryControllerLoop succ pl s0 cl).state) := by
      simp [updateConnection, hok]
    rw [hupd, htr]
    refine ⟨fun _ => ⟨h1, h2⟩, ?_, h3, h4⟩
    intro habs
    simp at habs
  | false =>
    obtain ⟨h1, h2⟩ := lf hok
    have hupd : updateConnection succ s0 pl cl =
        (false, ⟨s0.controllerURL, s0.proxy⟩) := by
      simp [updateConnection, hok]
    rw [hupd, htr]
    refine ⟨?_, fun _ => ⟨?_, h1, h2⟩, ⟨[], by rw [List.append_nil]; exact h1⟩, ?_⟩
    · intro habs
      simp at habs
    · cases s0
      rfl
    · intro t ht
      exact h2 t (List.Sublist.subset (List.dropLast_sublist _) ht)

/-- Witness for C5, instantiating §8 scenario 5 of the spec: controllers
`[A, B]`, proxies `[P1, P2]`, only `(B, no-proxy)` answering success. -/
theorem c5_updateConnection_witness :
    ((updateConnection (fun ctrl pr => ctrl == "B" && pr == none)
        ⟨"A", ""⟩ ["P1", "P2"] ["A", "B"]).1 = true →
      succTest (fun ctrl pr => ctrl == "B" && pr == none)
        (updateConnection (fun ctrl pr => ctrl == "B" && pr == none)
          ⟨"A", ""⟩ ["P1", "P2"] ["A", "B"]).2 = true ∧
      (updateTrace (fun ctrl pr => ctrl == "B" && pr == none)
        ⟨"A", ""⟩ ["P1", "P2"] ["A", "B"]).getLast? =
        some (updateConnection (fun ctrl pr => ctrl == "B" && pr == none)
          ⟨"A", ""⟩ ["P1", "P2"] ["A", "B"]).2) ∧
    ((updateConnection (fun ctrl pr => ctrl == "B" && pr == none)
        ⟨"A", ""⟩ ["P1", "P2"] ["A", "B"]).1 = false →
      (updateConnection (fun ctrl pr => ctrl == "B" && pr == none)
        ⟨"A", ""⟩ ["P1", "P2"] ["A", "B"]).2 = ⟨"A", ""⟩ ∧
      updateTrace (fun ctrl pr => ctrl == "B" && pr == none)
        ⟨"A", ""⟩ ["P1", "P2"] ["A", "B"] =
        claimTrials (Sender.proxy ⟨"A", ""⟩) ["P1", "P2"] ["A", "B"] ∧
      ∀ t ∈ updateTrace (fun ctrl pr => ctrl == "B" && pr == none)
        ⟨"A", ""⟩ ["P1", "P2"] ["A", "B"],
        succTest (fun ctrl pr => ctrl == "B" && pr == none) t = false) ∧
    (∃ rest, updateTrace (fun ctrl pr => ctrl == "B" && pr == none)
        ⟨"A", ""⟩ ["P1", "P2"] ["A", "B"] ++ rest =
      claimTrials (Sender.proxy ⟨"A", ""⟩) ["P1", "P2"] ["A", "B"]) ∧
    (∀ t ∈ (updateTrace (fun ctrl pr => ctrl == "B" && pr == none)
        ⟨"A", ""⟩ ["P1", "P2"] ["A", "B"]).dropLast,
      succTest (fun ctrl pr => ctrl == "B" && pr == none) t = false) :=
  c5_updateConnection_pins_only_tested
    (fun ctrl pr => ctrl == "B" && pr == none) ⟨"A", ""⟩
    ["P1", "P2"] ["A", "B"] (by decide)

/-- Sanity check of the embedding against §8 scenario 5: the walk pins
`controller = B` with no proxy. -/
theorem updateConnection_scenario_pins_b_noproxy :
    updateConnection (fun ctrl pr => ctrl == "B" && pr == none)
      ⟨"A", ""⟩ ["P1", "P2"] ["A", "B"] = (true, ⟨"B", ""⟩) := by
  decide

/-! ### CPU throttler (`MonitorCpu` in `plugins_darwin.go` and
`plugins_windows.go`) -/

/-- Process-control actions the throttler can issue on the child. -/
inductive ProcAction
  | suspend
  | resume
deriving DecidableEq

/-- Outcome of one `ThrottleCpu` call: a measurement failure returns
before touching the process, a failed suspension issues nothing, a
failed resumption leaves the child suspended, and a full iteration
suspends, sleeps and resumes. -/
inductive IterOutcome
  | measureFail
  | suspendFail
  | resumeFail
  | full
deriving DecidableEq

/-- The actions one `ThrottleCpu` call issues. -/
def iterActions : IterOutcome → List ProcAction
  | .measureFail => []
  | .suspendFail => []
  | .resumeFail => [.suspend]
  | .full => [.suspend, .resume]

/-- `MonitorCpu`'s loop, identical on darwin and windows: each pass
polls the quit channel through `select` — `case <-quit: return nil` — and
otherwise runs one `ThrottleCpu` call and sleeps 200 ms.  `quitReady k`
says whether a value is pending on the quit channel at pass `k`,
`outcome k` what the `k`-th `ThrottleCpu` call does, and `fuel` bounds
the passes observed; the result is the trace of actions issued on the
child. -/
def monitorCpu (quitReady : Nat → Bool) (outcome : Nat → IterOutcome) :
    Nat → Nat → List ProcAction
  | 0, _ => []
  | fuel + 1, k =>
    if quitReady k then []
    else iterActions (outcome k) ++ monitorCpu quitReady outcome fuel (k + 1)

/-! ### C6 -/

/-- C6 counterexample: with a value pending on the quit channel from the
start, `MonitorCpu` receives it and returns having issued no action at
all — in particular no final resume of the child.  The quit branch of
the loop is a bare `return nil`. -/
theorem c6_counterexample_quit_without_resume :
    (fun _ => true : Nat → Bool) 0 = true ∧
    monitorCpu (fun _ => true) (fun _ => IterOutcome.full) 5 0 = [] ∧
    ProcAction.resume ∉ monitorCpu (fun _ => true) (fun _ => IterOutcome.full) 5 0 := by
  refine ⟨rfl, rfl, ?_⟩
  intro h
  rw [show monitorCpu (fun _ => true) (fun _ => IterOutcome.full) 5 0 = []
    from rfl] at h
  exact List.not_mem_nil _ h

/-- C6 amended: when a value is sent on the quit channel, `MonitorCpu`
stops the loop and returns without issuing any action of its own: its
action trace is exactly the concatenation of the `ThrottleCpu`
iterations that ran before the quit was received, so any final resume
the child sees is the one inside the last completed iteration, not one
issued by the cancellation path. -/
theorem c6_monitorCpu_quit_stops_without_action
    (quitReady : Nat → Bool) (outcome : Nat → IterOutcome) :
    ∀ (fuel start : Nat),
      monitorCpu quitReady outcome fuel start =
        (((List.range' start fuel).takeWhile fun k => ! quitReady k).map
          fun k => iterActions (outcome k)).flatten := by
  intro fuel
  induction fuel with
  | zero => intro start; rfl
  | succ n ih =>
    intro start
    rw [List.range'_succ]
    cases hq : quitReady start with
    | true =>
      rw [List.takeWhile_cons]
      simp only [hq, Bool.not_true, Bool.false_eq_true, if_false]
      simp [monitorCpu, hq]
    | false =>
      rw [List.takeWhile_cons]
      simp only [hq, Bool.not_false, if_true]
      rw [List.map_cons, List.flatten_cons, ← ih (start + 1)]
      simp [monitorCpu, hq]

/-! ### Plugin records and the supervisor tick (`plugins.go`,
`plugin_manager.go`)

Times are modelled as `Int` nanoseconds (Go `time.Time`); the live OS
process table as `live : Int → Option String`, mapping a PID to the
executable name of the live process with that PID, if any
(`ps.FindProcess` + `Executable()`). -/

structure PluginRow where
  uuid : String
  name : String
  mode : String
  processName : String
  processID : Int
  currentManager : Int
  status : String
  statusMessage : String
  lastExit : Int
  lastStart : Int
deriving DecidableEq

/-- `Plugin.IsRunning` on the stored record: status must be `running`,
the stored PID non-zero and name non-empty, a live process with that PID
must exist, and its executable name must match the stored one. -/
def isRunning (live : Int → Option String) (stored : PluginRow) : Bool :=
  if stored.status != "running" then false
  else if stored.processID == 0 || stored.processName == "" then false
  else
    match live stored.processID with
    | none => false
    | some exe => exe == stored.processName

/-- The per-plugin configuration fields the tick decision reads. -/
structure PluginConfigEntry where
  uuid : String
  mode : String
  launchFrequency : Int
  retryFailure : Bool
deriving DecidableEq

inductive TickDecision
  | launch
  | resume
  | noop
deriving DecidableEq

def nanosPerSecond : Int := 1000000000

/-- The launch/adopt/no-op decision one `PluginManager` tick takes for a
configured plugin, given its stored record `p` and the current time in
nanoseconds.  Go's `time.Time.After` is a strict comparison, and the
periodic gate is
`time.Now().UTC().After(p.LastExit.Add(time.Second * LaunchFrequency))`. -/
def pluginDecision (live : Int → Option String) (currentManager : Int)
    (now : Int) (plugin : PluginConfigEntry) (p : PluginRow) :
    TickDecision :=
  if plugin.mode == "oneshot" then
    if p.status == "" then .launch
    else if p.status == "error" then
      if plugin.retryFailure then .launch else .noop
    else .noop
  else if plugin.mode == "persistent" then
    if !(isRunning live p) then .launch
    else if p.currentManager != currentManager then .resume
    else .noop
  else if plugin.mode == "periodic" then
    if !(isRunning live p) then
      if now > p.lastExit + plugin.launchFrequency * nanosPerSecond then
        .launch
      else .noop
    else if p.currentManager != currentManager then .resume
    else .noop
  else .noop

/-! ### C8 -/

/-- For a periodic plugin the tick decision reduces to the running and
timing gates. -/
theorem pluginDecision_periodic (live : Int → Option String)
    (cm now : Int) (plugin : PluginConfigEntry) (p : PluginRow)
    (hmode : plugin.mode = "periodic") :
    pluginDecision live cm now plugin p =
      if !(isRunning live p) then
        if now > p.lastExit + plugin.launchFrequency * nanosPerSecond then
          .launch
        else .noop
      else if p.currentManager != cm then .resume
      else .noop := by
  unfold pluginDecision
  rw [hmode]
  rw [if_neg (by decide), if_neg (by decide), if_pos (by decide)]

/-- C8: a periodic plugin is launched on a tick only when it is not
running and the current time has reached `last_exit` plus
`launch_frequency` seconds; before that instant the decision is never
`launch`. -/
theorem c8_periodic_launch_gate (live : Int → Option String)
    (cm now : Int) (plugin : PluginConfigEntry) (p : PluginRow)
    (hmode : plugin.mode = "periodic") :
    (pluginDecision live cm now plugin p = .launch →
      isRunning live p = false ∧
      now ≥ p.lastExit + plugin.launchFrequency * nanosPerSecond) ∧
    (now < p.lastExit + plugin.launchFrequency * nanosPerSecond →
      pluginDecision live cm now plugin p ≠ .launch) := by
  rw [pluginDecision_periodic live cm now plugin p hmode]
  constructor
  · intro hd
    cases hrun : isRunning live p with
    | true =>
      rw [hrun] at hd
      simp only [Bool.not_true, Bool.false_eq_true, if_false] at hd
      by_cases hm : p.currentManager != cm
      · rw [if_pos hm] at hd
        cases hd
      · rw [if_neg hm] at hd
        cases hd
    | false =>
      rw [hrun] at hd
      simp only [Bool.not_false, if_true] at hd
      by_cases ht : now > p.lastExit + plugin.launchFrequency * nanosPerSecond
      · exact ⟨rfl, le_of_lt ht⟩
      · rw [if_neg ht] at hd
        cases hd
  · intro ht hd
    cases hrun : isRunning live p with
    | true =>
      rw [hrun] at hd
      simp only [Bool.not_true, Bool.false_eq_true, if_false] at hd
      by_cases hm : p.currentManager != cm
      · rw [if_pos hm] at hd
        cases hd
      · rw [if_neg hm] at hd
        cases hd
    | false =>
      rw [hrun] at hd
      simp only [Bool.not_false, if_true] at hd
      rw [if_neg (by omega)] at hd
      cases hd

/-- Witness for C8: five seconds after exit, a periodic plugin with a
ten-second launch frequency is not launched. -/
theorem c8_periodic_witness :
    (pluginDecision (fun _ => none) 1 (5 * nanosPerSecond)
        ⟨"u1", "periodic", 10, false⟩
        ⟨"u1", "n", "periodic", "", 0, 0, "complete", "", 0, 0⟩ =
          TickDecision.launch →
      isRunning (fun _ => none)
        ⟨"u1", "n", "periodic", "", 0, 0, "complete", "", 0, 0⟩ = false ∧
      5 * nanosPerSecond ≥
        (⟨"u1", "n", "periodic", "", 0, 0, "complete", "", 0, 0⟩ :
          PluginRow).lastExit + 10 * nanosPerSecond) ∧
    (5 * nanosPerSecond <
        (⟨"u1", "n", "periodic", "", 0, 0, "complete", "", 0, 0⟩ :
          PluginRow).lastExit + 10 * nanosPerSecond →
      pluginDecision (fun _ => none) 1 (5 * nanosPerSecond)
        ⟨"u1", "periodic", 10, false⟩
        ⟨"u1", "n", "periodic", "", 0, 0, "complete", "", 0, 0⟩ ≠
          TickDecision.launch) :=
  c8_periodic_launch_gate (fun _ => none) 1 (5 * nanosPerSecond)
    ⟨"u1", "periodic", 10, false⟩
    ⟨"u1", "n", "periodic", "", 0, 0, "complete", "", 0, 0⟩ rfl

/-! ### C7 -/

/-- The garbage-collect pass at the end of each configured-plugin
iteration in `PluginManager` (`plugin_manager.go` lines 100-142).  `p`
is the record loaded for the plugin currently being processed by the
outer loop; the code gates on `runningPlugin.ProcessID != 0` but then
looks up and name-matches `p.ProcessID` / `p.ProcessName` — not the
running record's — before killing.  Returns the PIDs killed and the
records rewritten to `complete` / `removed from configuration`. -/
def gcPass (live : Int → Option String) (configUUIDs : List String)
    (p : PluginRow) (runningPlugins : List PluginRow) :
    List Int × List PluginRow :=
  runningPlugins.foldr
    (fun rp acc =>
      if configUUIDs.contains rp.uuid then acc
      else
        ((if rp.processID != 0 then
            match live p.processID with
            | some exe => if exe == p.processName then [p.processID] else []
            | none => []
          else []) ++ acc.1,
          { rp with status := "complete",
                    statusMessage := "removed from configuration" } :: acc.2))
    ([], [])

/-- Modelled from the spec: the garbage collect the claim describes —
for each `running` record absent from the configuration, kill the
process identified by that record's own `process_id` iff a live process
with that PID exists and its executable name equals that same record's
stored `process_name`. -/
def gcPassSpec (live : Int → Option String) (configUUIDs : List String)
    (runningPlugins : List PluginRow) : List Int × List PluginRow :=
  runningPlugins.foldr
    (fun rp acc =>
      if configUUIDs.contains rp.uuid then acc
      else
        ((if rp.processID != 0 then
            match live rp.processID with
            | some exe => if exe == rp.processName then [rp.processID] else []
            | none => []
          else []) ++ acc.1,
          { rp with status := "complete",
                    statusMessage := "removed from configuration" } :: acc.2))
    ([], [])

/-- C7: the code's garbage collect diverges from the claim.  Concrete
run: the configured plugin's record `p` has PID 7 (dead) and name
`other`; the stale running record has PID 42, alive with matching name
`mal`.  The claim requires PID 42 to be killed; the code consults
`p.ProcessID = 7`, finds no live process, and kills nothing (it still
rewrites the record).  The spec-modelled pass kills 42. -/
theorem c7_gc_consults_wrong_record :
    gcPass (fun pid => if pid == 42 then some "mal" else none) ["cfg1"]
        ⟨"cfg1", "n", "persistent", "other", 7, 0, "running", "", 0, 0⟩
        [⟨"gone", "g", "persistent", "mal", 42, 0, "running", "", 0, 0⟩] =
      ([], [⟨"gone", "g", "persistent", "mal", 42, 0, "complete",
        "removed from configuration", 0, 0⟩]) ∧
    gcPassSpec (fun pid => if pid == 42 then some "mal" else none) ["cfg1"]
        [⟨"gone", "g", "persistent", "mal", 42, 0, "running", "", 0, 0⟩] =
      ([42], [⟨"gone", "g", "persistent", "mal", 42, 0, "complete",
        "removed from configuration", 0, 0⟩]) := by
  constructor
  · rfl
  · rfl

/-! ### C9 -/

/-- Store state the supervisor components touch: the `plugins` table and
the `message_queue`. -/
structure Store where
  plugins : List PluginRow
  queue : List QueueRow
deriving DecidableEq

/-- `Plugin.QueuePluginLog`: when online, enqueue the serialized record
with `current_manager` zeroed to `/core/pluginlog/`; it performs no
plugin-table write. -/
def queuePluginLog (offline : Bool) (serialize : PluginRow → String)
    (p : PluginRow) (st : Store) : Store :=
  if offline then st
  else
    let msg := serialize { p with currentManager := 0 }
    { st with queue := messageQueueInsert msg "/core/pluginlog/" st.queue }

/-- The exit path of `Plugin.ResumePlugin`, reached once its polling
loop observes the adopted process gone or superseded: it sets
`status_message`, `last_exit` and `status` (to
`exited after monitoring resumed`, not `complete`) on its local copy
only, and calls `QueuePluginLog`. -/
def resumePluginExit (offline : Bool) (serialize : PluginRow → String)
    (now : Int) (p : PluginRow) (st : Store) : Store :=
  let p1 := { p with statusMessage := "exited after monitoring resumed",
                     lastExit := now,
                     status := "exited after monitoring resumed" }
  queuePluginLog offline serialize p1 st

/-- The 30-second polling loop of `ResumePlugin`: re-read the record
each pass (`reads k` is the record `PluginSelectUUID` returns at pass
`k`) and stop when `IsRunning` fails or the PID changed.  The loop
performs no Store writes; it returns the record the exit path uses. -/
def resumeLoop (live : Int → Option String) (reads : Nat → PluginRow)
    (currentPID : Int) : Nat → Nat → PluginRow
  | 0, k => reads k
  | fuel + 1, k =>
    if isRunning live (reads k) && currentPID == (reads k).processID then
      resumeLoop live reads currentPID fuel (k + 1)
    else reads k

/-- `ResumePlugin` from the start of its polling loop to its return. -/
def resumePluginTail (offline : Bool) (serialize : PluginRow → String)
    (now : Int) (live : Int → Option String) (reads : Nat → PluginRow)
    (currentPID : Int) (fuel : Nat) (st : Store) : Store :=
  resumePluginExit offline serialize now
    (resumeLoop live reads currentPID fuel 0) st

/-- Rows surviving the rolling trigger were already in the table. -/
theorem rollingTrigger_subset (q : List QueueRow) :
    ∀ r ∈ rollingTrigger q, r ∈ q := by
  intro r hr
  unfold rollingTrigger at hr
  rcases hg : ((sortByRowid q).reverse)[20000]? with _ | cutoff
  · rw [hg] at hr
    exact hr
  · rw [hg] at hr
    exact List.mem_of_mem_filter hr

/-- C9: once the adopted process is observed gone, `ResumePlugin`'s
exit path leaves the `plugins` table untouched — the persisted record's
`status` is not overwritten to `complete` and its `process_id` is not
cleared — and its only Store effect is enqueuing at most one telemetry
message, carrying status `exited after monitoring resumed` and a zeroed
`current_manager`. -/
theorem c9_adopter_exit_frame (offline : Bool)
    (serialize : PluginRow → String) (now : Int)
    (live : Int → Option String) (reads : Nat → PluginRow)
    (currentPID : Int) (fuel : Nat) (st : Store) :
    (resumePluginTail offline serialize now live reads currentPID fuel
        st).plugins = st.plugins ∧
    ∀ r ∈ (resumePluginTail offline serialize now live reads currentPID fuel
        st).queue,
      r ∈ st.queue ∨
      (r.postURI = "/core/pluginlog/" ∧
        r.postString = serialize
          { resumeLoop live reads currentPID fuel 0 with
              statusMessage := "exited after monitoring resumed",
              lastExit := now,
              status := "exited after monitoring resumed",
              currentManager := 0 }) := by
  unfold resumePluginTail resumePluginExit queuePluginLog
  cases offline with
  | true =>
    exact ⟨rfl, fun r hr => Or.inl hr⟩
  | false =>
    refine ⟨rfl, ?_⟩
    intro r hr
    simp only [Bool.false_eq_true, if_false] at hr
    have hr2 := rollingTrigger_subset _ r hr
    rcases List.mem_append.mp hr2 with h | h
    · exact Or.inl h
    · right
      have : r = ⟨nextRowid st.queue,
          serialize { resumeLoop live reads currentPID fuel 0 with
            statusMessage := "exited after monitoring resumed",
            lastExit := now,
            status := "exited after monitoring resumed",
            currentManager := 0 }, "/core/pluginlog/"⟩ := by
        simpa using h
      rw [this]
      exact ⟨rfl, rfl⟩

/-- Witness for C9 at a concrete state: one persisted running record,
empty queue, loop exiting immediately. -/
theorem c9_adopter_exit_witness :
    (resumePluginTail false (fun p => p.uuid) 5 (fun _ => none)
        (fun _ => ⟨"u1", "n", "persistent", "x", 3, 9, "running", "", 0, 0⟩)
        3 0
        ⟨[⟨"u1", "n", "persistent", "x", 3, 9, "running", "", 0, 0⟩],
          []⟩).plugins =
      (⟨[⟨"u1", "n", "persistent", "x", 3, 9, "running", "", 0, 0⟩],
          []⟩ : Store).plugins ∧
    ∀ r ∈ (resumePluginTail false (fun p => p.uuid) 5 (fun _ => none)
        (fun _ => ⟨"u1", "n", "persistent", "x", 3, 9, "running", "", 0, 0⟩)
        3 0
        ⟨[⟨"u1", "n", "persistent", "x", 3, 9, "running", "", 0, 0⟩],
          []⟩).queue,
      r ∈ (⟨[⟨"u1", "n", "persistent", "x", 3, 9, "running", "", 0, 0⟩],
          []⟩ : Store).queue ∨
      (r.postURI = "/core/pluginlog/" ∧
        r.postString = (fun p : PluginRow => p.uuid)
          { resumeLoop (fun _ => none)
              (fun _ => ⟨"u1", "n", "persistent", "x", 3, 9, "running", "",
                0, 0⟩) 3 0 0 with
              statusMessage := "exited after monitoring resumed",
              lastExit := 5,
              status := "exited after monitoring resumed",
              currentManager := 0 }) :=
  c9_adopter_exit_frame false (fun p => p.uuid) 5 (fun _ => none)
    (fun _ => ⟨"u1", "n", "persistent", "x", 3, 9, "running", "", 0, 0⟩)
    3 0
    ⟨[⟨"u1", "n", "persistent", "x", 3, 9, "running", "", 0, 0⟩], []⟩

end Ghost
